/-
Formal model of the Compliance Gap Analyzer backend (src/main.py).

The document text is modelled as a `List Char`.  Python's `str.lower()` is
modelled as a character-wise lower-casing (the markers and all behaviour the
spec describes are ASCII, where the two coincide).  Python's substring test
`k in lower` is modelled by the executable `containsSeq` below.  Python
floats are modelled by exact rationals: every fraction the scorer produces
is of the form hits/5 or hits/6 rounded to two decimals, and the sums and
comparisons the code performs are exact at every value reachable here, so
the rational model agrees with the float computation on all inputs
(`round(x, 2)` is modelled as round-half-to-even on the exact rational;
no reachable per-cluster value is a tie, and the threshold constants 0.5
and 0.75 are exactly representable).
-/
import Mathlib

namespace ComplianceGap

/-- `startsW n h` : the char sequence `n` is an initial segment of `h`. -/
def startsW : List Char → List Char → Bool
  | [], _ => true
  | _ :: _, [] => false
  | a :: as, b :: bs => a == b && startsW as bs

/-- `containsSeq n h` : `n` occurs contiguously somewhere inside `h`.
Model of Python's substring test `n in h`. -/
def containsSeq (n : List Char) : List Char → Bool
  | [] => n.isEmpty
  | b :: t => startsW n (b :: t) || containsSeq n t

/-- Model of `text.lower()` (line 48 of src/main.py); character-wise,
which agrees with Python on ASCII text.  `text.lower() if text else ""`
is the same function, since the empty text lowers to itself. -/
def lowerText (text : List Char) : List Char :=
  text.map Char.toLower

/-- Round-half-to-even of the fraction `n / d` (for `d > 0`) to an
integer: the rounding mode of Python's built-in `round`.  `n / d` and
`n % d` are integer floor division and remainder, so the first branch is
`fract (n/d) < 1/2`, the second `fract (n/d) > 1/2`, and the tie goes to
the even neighbour. -/
def rheInt (n : ℤ) (d : ℕ) : ℤ :=
  if 2 * (n % (d : ℤ)) < (d : ℤ) then n / (d : ℤ)
  else if (d : ℤ) < 2 * (n % (d : ℤ)) then n / (d : ℤ) + 1
  else if (n / (d : ℤ)) % 2 = 0 then n / (d : ℤ) else n / (d : ℤ) + 1

/-- Model of Python's `round(q, 2)` (lines 57 and 63 of src/main.py):
round-half-to-even at two decimals, i.e. the nearest multiple of 1/100.
Since `q = q.num / q.den`, the integer being computed is the half-even
rounding of `100 * q`; see `round2_eq`. -/
def round2 (q : ℚ) : ℚ :=
  mkRat (rheInt (100 * q.num) q.den) 100

/-- The six fixed keyword clusters of `analyze_text` (lines 39-46),
in the fixed (insertion) order the Python dict iterates them. -/
def clusters : List (String × List String) :=
  [ ("privacy", ["privacy", "personal data", "pii", "consent", "gdpr", "ccpa"]),
    ("security", ["encryption", "access control", "key management",
                  "vulnerability", "patch", "incident"]),
    ("governance", ["risk", "policy", "procedure", "audit", "control", "evidence"]),
    ("retention", ["retention", "archiv", "delete", "erase", "data minimization"]),
    ("training", ["training", "awareness", "onboarding", "annual", "phishing"]),
    ("vendor", ["third party", "vendor", "processor", "subprocessor", "assessment"]) ]

/-- `hits = sum(1 for k in kws if k in lower)` (line 55). -/
def hits (lower : List Char) (kws : List String) : ℕ :=
  kws.countP (fun k => containsSeq k.toList lower)

/-- `score = hits / max(len(kws), 1)` (line 56), before rounding: the
exact rational value of the division; see `rawScore_eq`. -/
def rawScore (lower : List Char) (kws : List String) : ℚ :=
  mkRat (hits lower kws : ℤ) (max kws.length 1)

/-- The `keyword_coverage` dict (lines 54-57), as an ordered association
list: cluster id mapped to its rounded fraction. -/
def covOf (lower : List Char) : List (String × ℚ) :=
  clusters.map (fun p => (p.1, round2 (rawScore lower p.2)))

/-- The `present_labels` list (lines 58-59): clusters whose unrounded
score is positive, in cluster order. -/
def presentOf (lower : List Char) : List String :=
  (clusters.filter (fun p => decide (0 < rawScore lower p.2))).map (fun p => p.1)

/-- The gap string `f"Missing any mention of {label} controls"` (line 61). -/
def gapString (label : String) : String :=
  "Missing any mention of " ++ label ++ " controls"

/-- The `gaps` list (lines 60-61): one gap string per cluster whose
unrounded score is not positive, in cluster order. -/
def gapsOf (lower : List Char) : List String :=
  (clusters.filter (fun p => !decide (0 < rawScore lower p.2))).map
    (fun p => gapString p.1)

/-- Rational addition, written out on numerators and denominators;
equal to `+` on `ℚ` (see `qadd_eq_add`). -/
def qadd (a b : ℚ) : ℚ :=
  mkRat (a.num * (b.den : ℤ) + b.num * (a.den : ℤ)) (a.den * b.den)

/-- Sum of a list of rationals; equal to `List.sum` (see `sumQ_eq_sum`). -/
def sumQ (l : List ℚ) : ℚ :=
  l.foldr qadd 0

/-- `a / n` for a natural `n > 0`, written out on numerator and
denominator; equal to the division (see `qdivNat_eq`). -/
def qdivNat (a : ℚ) (n : ℕ) : ℚ :=
  mkRat a.num (a.den * n)

/-- `coverage_score` (line 63): the rounded mean
`round(sum(keyword_coverage.values()) / max(len(keyword_coverage), 1), 2)`
of the rounded per-cluster fractions. -/
def coverageScoreOf (lower : List Char) : ℚ :=
  round2 (qdivNat (sumQ ((covOf lower).map (fun p => p.2))) (max (covOf lower).length 1))

/-- The `vibe` tier selection (lines 66-71); the thresholds are the
Python literals 0.75 and 0.5 (exactly representable floats). -/
def vibeOf (coverageScore : ℚ) : String :=
  if mkRat 3 4 ≤ coverageScore then "rock-solid — almost party-ready for auditors!"
  else if mkRat 1 2 ≤ coverageScore then "decent — with a few rhythm breaks to smooth out."
  else "a work-in-progress — let\x27s add some shiny controls."

/-- The `summary` f-string (lines 73-76). -/
def summaryOf (coverageScore : ℚ) (present : List String) : String :=
  "Your compliance groove is " ++ vibeOf coverageScore ++ " Highlights: " ++
    (if present.isEmpty then "none yet" else String.intercalate ", " present)

/-- The dict returned by `analyze_text` (lines 93-98).  Note that the
advisory `recommendations` list built at lines 79-91 is NOT part of the
returned dict; it is modelled separately as `adviceList` below. -/
structure Analysis where
  coverage_score : ℚ
  keyword_coverage : List (String × ℚ)
  gaps : List String
  summary : String
deriving DecidableEq, Repr

/-- `analyze_text` applied to the already lower-cased text.  The single
Python `for` loop (lines 54-61) appends to `keyword_coverage`,
`present_labels` and `gaps` independently at each iteration, so it is
modelled by the three per-cluster traversals `covOf`, `presentOf`,
`gapsOf`, which produce exactly the same three lists. -/
def analyzeLower (lower : List Char) : Analysis :=
  { coverage_score := coverageScoreOf lower
    keyword_coverage := covOf lower
    gaps := gapsOf lower
    summary := summaryOf (coverageScoreOf lower) (presentOf lower) }

/-- `analyze_text` (lines 33-98): lower-case once, then score. -/
def analyzeText (text : List Char) : Analysis :=
  analyzeLower (lowerText text)

/-- `keyword_coverage.get(label, 0)` (lines 80-90). -/
def getCov (kc : List (String × ℚ)) (label : String) : ℚ :=
  ((kc.lookup label).getD 0)

/-- The per-cluster advisory list built at lines 79-91 of `analyze_text`:
one fixed sentence for each cluster whose rounded fraction is below 0.5.
The source computes this list but does not include it in the dict it
returns, so it never reaches the HTTP response. -/
def adviceList (kc : List (String × ℚ)) : List String :=
  (if getCov kc "privacy" < mkRat 1 2 then
    ["Add a clear privacy section covering consent, PII handling and data rights."]
   else []) ++
  (if getCov kc "security" < mkRat 1 2 then
    ["Document technical controls like encryption at rest/in transit and access policies."]
   else []) ++
  (if getCov kc "governance" < mkRat 1 2 then
    ["Describe your risk assessment, audit cadence and evidence collection."]
   else []) ++
  (if getCov kc "retention" < mkRat 1 2 then
    ["Define data retention schedules and deletion processes."]
   else []) ++
  (if getCov kc "training" < mkRat 1 2 then
    ["Include security awareness and annual training details."]
   else []) ++
  (if getCov kc "vendor" < mkRat 1 2 then
    ["Explain third-party risk management and vendor assessments."]
   else [])

/-- The two fixed encouragement strings appended by the endpoint
(lines 153-156). -/
def encouragements : List String :=
  [ "Celebrate the wins: compliance keeps users safe and builds trust.",
    "We smooth the annoying bits with templates, checklists and automation." ]

/-- Outcome of the persistence attempt (lines 126-139): either
`create_document` returned an id, or anything at all went wrong
(module missing, database down, ...) and the exception was caught. -/
inductive PersistOutcome where
  | ok (id : String)
  | failure
deriving DecidableEq

/-- The `inserted_id` after the try/except (lines 125-139). -/
def insertedId : PersistOutcome → Option String
  | .ok id => some id
  | .failure => none

/-- Python's `s or default` for the MIME type (line 145): `None` and the
empty string both fall back to the default. -/
def pyOrStr (s : Option String) (d : String) : String :=
  match s with
  | none => d
  | some t => if t = "" then d else t

/-- The response model of `POST /api/analyze` (lines 20-30, 141-158).
`uploaded_at` is a wall-clock timestamp and is not modelled. -/
structure AnalyzeResponse where
  id : Option String
  filename : String
  size : ℕ
  mime_type : String
  summary : String
  coverage_score : ℚ
  keyword_coverage : List (String × ℚ)
  gaps : List String
  recommendations : List String
deriving DecidableEq

/-- `upload_and_analyze` (lines 112-158) after the uploaded bytes have
been successfully read and decoded to `text`: run `analyze_text`,
attempt persistence (whose outcome is the parameter `o`), and build the
response — whose `recommendations` are the analysis `gaps` followed by
the two encouragement strings (lines 151-157). -/
def uploadAndAnalyze (text : List Char) (filename : String) (size : ℕ)
    (contentType : Option String) (o : PersistOutcome) : AnalyzeResponse :=
  let analysis := analyzeText text
  { id := insertedId o
    filename := filename
    size := size
    mime_type := pyOrStr contentType "text/plain"
    summary := analysis.summary
    coverage_score := analysis.coverage_score
    keyword_coverage := analysis.keyword_coverage
    gaps := analysis.gaps
    recommendations := analysis.gaps ++ encouragements }

/-- All 33 markers of all six clusters. -/
def allMarkers : List String :=
  clusters.flatMap (fun p => p.2)

/-- All markers other than `"encryption"`, `"access control"` and
`"control"` (the last is a governance marker that occurs inside the
security marker `"access control"` as a substring). -/
def otherMarkers : List String :=
  [ "privacy", "personal data", "pii", "consent", "gdpr", "ccpa",
    "key management", "vulnerability", "patch", "incident",
    "risk", "policy", "procedure", "audit", "evidence",
    "retention", "archiv", "delete", "erase", "data minimization",
    "training", "awareness", "onboarding", "annual", "phishing",
    "third party", "vendor", "processor", "subprocessor", "assessment" ]

/-- A sample document containing every marker of every cluster. -/
def everyMarkerText : String :=
  "privacy personal data pii consent gdpr ccpa encryption access control " ++
  "key management vulnerability patch incident risk policy procedure audit " ++
  "control evidence retention archiv delete erase data minimization " ++
  "training awareness onboarding annual phishing third party vendor " ++
  "processor subprocessor assessment"

/-! ### The rounding function: characterization and order lemmas -/

/-- Proof-side characterization of `rheInt`: round-half-to-even written
with `Int.floor` and `Int.fract`. -/
def rheRat (x : ℚ) : ℤ :=
  if Int.fract x < 1 / 2 then ⌊x⌋
  else if 1 / 2 < Int.fract x then ⌊x⌋ + 1
  else if ⌊x⌋ % 2 = 0 then ⌊x⌋ else ⌊x⌋ + 1

theorem mkRat_eq_div' (n : ℤ) (d : ℕ) : mkRat n d = (n : ℚ) / (d : ℚ) := by
  rw [Rat.mkRat_eq_divInt, Rat.divInt_eq_div]
  norm_cast

theorem rheInt_eq_rheRat {d : ℕ} (hd : d ≠ 0) (n : ℤ) :
    rheInt n d = rheRat ((n : ℚ) / (d : ℚ)) := by
  have hdq : (0 : ℚ) < (d : ℚ) := by exact_mod_cast Nat.pos_of_ne_zero hd
  have hfl : ⌊(n : ℚ) / (d : ℚ)⌋ = n / (d : ℤ) := Rat.floor_intCast_div_natCast n d
  have hfr : Int.fract ((n : ℚ) / (d : ℚ)) = ((n % (d : ℤ) : ℤ) : ℚ) / (d : ℚ) := by
    rw [Int.fract, hfl, Int.emod_def]
    push_cast
    field_simp
  have c1 : Int.fract ((n : ℚ) / (d : ℚ)) < 1 / 2 ↔ 2 * (n % (d : ℤ)) < (d : ℤ) := by
    rw [hfr, div_lt_div_iff hdq two_pos]
    constructor
    · intro h
      exact_mod_cast (by push_cast; linarith :
        ((2 * (n % (d : ℤ)) : ℤ) : ℚ) < ((d : ℕ) : ℚ))
    · intro h
      have h2 : ((2 * (n % (d : ℤ)) : ℤ) : ℚ) < ((d : ℕ) : ℚ) := by exact_mod_cast h
      push_cast at h2
      linarith
  have c2 : 1 / 2 < Int.fract ((n : ℚ) / (d : ℚ)) ↔ (d : ℤ) < 2 * (n % (d : ℤ)) := by
    rw [hfr, div_lt_div_iff two_pos hdq]
    constructor
    · intro h
      exact_mod_cast (by push_cast; linarith :
        ((d : ℕ) : ℚ) < ((2 * (n % (d : ℤ)) : ℤ) : ℚ))
    · intro h
      have h2 : ((d : ℕ) : ℚ) < ((2 * (n % (d : ℤ)) : ℤ) : ℚ) := by exact_mod_cast h
      push_cast at h2
      linarith
  rw [rheInt, rheRat, hfl]
  simp only [c1, c2]

theorem round2_eq (q : ℚ) : round2 q = ((rheRat (100 * q) : ℤ) : ℚ) / 100 := by
  have harg : ((100 * q.num : ℤ) : ℚ) / ((q.den : ℕ) : ℚ) = 100 * q := by
    push_cast
    rw [mul_div_assoc, Rat.num_div_den]
  rw [round2, mkRat_eq_div', rheInt_eq_rheRat q.den_nz, harg]
  norm_num

theorem rheRat_floor_le (x : ℚ) : ⌊x⌋ ≤ rheRat x := by
  rw [rheRat]
  split_ifs <;> omega

theorem rheRat_le_floor_add_one (x : ℚ) : rheRat x ≤ ⌊x⌋ + 1 := by
  rw [rheRat]
  split_ifs <;> omega

theorem rheRat_mono {x y : ℚ} (h : x ≤ y) : rheRat x ≤ rheRat y := by
  rcases eq_or_lt_of_le (Int.floor_le_floor h) with heq | hlt
  · have hcast : ((⌊x⌋ : ℤ) : ℚ) = ((⌊y⌋ : ℤ) : ℚ) := by exact_mod_cast heq
    have hfr : Int.fract x ≤ Int.fract y := by
      rw [Int.fract, Int.fract]
      linarith
    rw [rheRat, rheRat]
    split_ifs <;> first | omega | linarith
  · calc rheRat x ≤ ⌊x⌋ + 1 := rheRat_le_floor_add_one x
      _ ≤ ⌊y⌋ := by omega
      _ ≤ rheRat y := rheRat_floor_le y

theorem rheRat_le_of_le {x : ℚ} {m : ℤ} (h : x ≤ (m : ℚ)) : rheRat x ≤ m := by
  have hf : ⌊x⌋ ≤ m := by
    have := Int.floor_le_floor h
    simpa using this
  rcases eq_or_lt_of_le hf with heq | hlt
  · have hcast : ((⌊x⌋ : ℤ) : ℚ) = (m : ℚ) := by exact_mod_cast heq
    have hfx : Int.fract x < 1 / 2 := by
      have h0 : Int.fract x ≤ 0 := by
        rw [Int.fract]
        linarith
      have h1 := Int.fract_nonneg x
      linarith
    rw [rheRat, if_pos hfx]
    omega
  · have := rheRat_le_floor_add_one x
    omega

theorem le_rheRat {x : ℚ} {m : ℤ} (h : (m : ℚ) ≤ x) : m ≤ rheRat x :=
  le_trans (Int.le_floor.mpr h) (rheRat_floor_le x)

theorem round2_mono {q r : ℚ} (h : q ≤ r) : round2 q ≤ round2 r := by
  rw [round2_eq, round2_eq]
  have h1 := rheRat_mono (show 100 * q ≤ 100 * r by linarith)
  have h2 : ((rheRat (100 * q) : ℤ) : ℚ) ≤ ((rheRat (100 * r) : ℤ) : ℚ) := by
    exact_mod_cast h1
  exact (div_le_div_right (by norm_num)).mpr h2

theorem round2_nonneg {q : ℚ} (h : 0 ≤ q) : 0 ≤ round2 q := by
  rw [round2_eq]
  have h0 : (0 : ℤ) ≤ rheRat (100 * q) := le_rheRat (by push_cast; linarith)
  exact div_nonneg (by exact_mod_cast h0) (by norm_num)

theorem round2_le_one {q : ℚ} (h : q ≤ 1) : round2 q ≤ 1 := by
  rw [round2_eq]
  have h1 : rheRat (100 * q) ≤ 100 := rheRat_le_of_le (by push_cast; linarith)
  rw [div_le_one (by norm_num)]
  exact_mod_cast h1

theorem round2_pos {q : ℚ} (h : mkRat 1 6 ≤ q) : 0 < round2 q := by
  have h1 : round2 (mkRat 1 6) ≤ round2 q := round2_mono h
  have h2 : round2 (mkRat 1 6) = mkRat 17 100 := by decide
  have h3 : (0 : ℚ) < mkRat 17 100 := by decide
  rw [h2] at h1
  linarith

/-! ### Bridging lemmas for the executable rational arithmetic -/

theorem qadd_eq_add (a b : ℚ) : qadd a b = a + b := by
  have ha : ((a.den : ℕ) : ℚ) ≠ 0 := Nat.cast_ne_zero.mpr a.den_nz
  have hb : ((b.den : ℕ) : ℚ) ≠ 0 := Nat.cast_ne_zero.mpr b.den_nz
  rw [qadd, mkRat_eq_div']
  push_cast
  conv_rhs => rw [← Rat.num_div_den a, ← Rat.num_div_den b]
  rw [div_add_div _ _ ha hb]
  ring

theorem sumQ_eq_sum (l : List ℚ) : sumQ l = l.sum := by
  induction l with
  | nil => rfl
  | cons a t ih =>
    show qadd a (sumQ t) = (a :: t).sum
    rw [qadd_eq_add, ih, List.sum_cons]

theorem qdivNat_eq (n : ℕ) (a : ℚ) : qdivNat a n = a / (n : ℚ) := by
  rw [qdivNat, mkRat_eq_div']
  push_cast
  rw [← div_div, Rat.num_div_den]

theorem rawScore_eq (lower : List Char) (kws : List String) :
    rawScore lower kws = (hits lower kws : ℚ) / (max kws.length 1 : ℚ) := by
  rw [rawScore, mkRat_eq_div']
  push_cast
  ring

theorem maxden_pos (kws : List String) : (0 : ℚ) < (max kws.length 1 : ℚ) := by
  have : 0 < max kws.length 1 := lt_of_lt_of_le Nat.zero_lt_one (le_max_right _ _)
  exact_mod_cast this

theorem rawScore_nonneg (lower : List Char) (kws : List String) :
    0 ≤ rawScore lower kws := by
  rw [rawScore_eq]
  exact div_nonneg (by positivity) (le_of_lt (maxden_pos kws))

theorem rawScore_le_one (lower : List Char) (kws : List String) :
    rawScore lower kws ≤ 1 := by
  rw [rawScore_eq, div_le_one (maxden_pos kws)]
  have h : hits lower kws ≤ max kws.length 1 :=
    le_trans (List.countP_le_length _) (le_max_left _ _)
  exact_mod_cast h

theorem rawScore_pos_iff (lower : List Char) (kws : List String) :
    0 < rawScore lower kws ↔ 0 < hits lower kws := by
  rw [rawScore_eq]
  constructor
  · intro h
    by_contra hz
    have h0 : hits lower kws = 0 := by omega
    rw [h0] at h
    norm_num at h
  · intro h
    have h1 : (0 : ℚ) < (hits lower kws : ℚ) := by exact_mod_cast h
    exact div_pos h1 (maxden_pos kws)

theorem rawScore_ge_sixth {lower : List Char} {kws : List String}
    (h : 0 < hits lower kws) (hlen : kws.length ≤ 6) :
    mkRat 1 6 ≤ rawScore lower kws := by
  rw [rawScore_eq, mkRat_eq_div']
  have hmax : (max kws.length 1 : ℚ) ≤ 6 := by
    have : max kws.length 1 ≤ 6 := by omega
    exact_mod_cast this
  have h1 : (1 : ℚ) ≤ (hits lower kws : ℚ) := by exact_mod_cast h
  have hd := maxden_pos kws
  calc (1 : ℚ) / (6 : ℕ) ≤ 1 / (max kws.length 1 : ℚ) := by
        apply one_div_le_one_div_of_le hd
        simpa using hmax
    _ ≤ (hits lower kws : ℚ) / (max kws.length 1 : ℚ) :=
        (div_le_div_right hd).mpr h1

/-! ### Substring search: characterization and consequences -/

theorem startsW_iff {a b : List Char} : startsW a b = true ↔ ∃ t, b = a ++ t := by
  induction a generalizing b with
  | nil => simp [startsW]
  | cons x xs ih =>
    cases b with
    | nil => simp [startsW]
    | cons y ys =>
      simp only [startsW, Bool.and_eq_true, beq_iff_eq, ih, List.cons_append]
      constructor
      · rintro ⟨rfl, t, rfl⟩
        exact ⟨t, rfl⟩
      · rintro ⟨t, h⟩
        injection h with h1 h2
        exact ⟨h1.symm, t, h2⟩

theorem containsSeq_iff {a b : List Char} :
    containsSeq a b = true ↔ ∃ u v, b = u ++ a ++ v := by
  induction b with
  | nil =>
    simp only [containsSeq, List.isEmpty_iff]
    constructor
    · rintro rfl
      exact ⟨[], [], rfl⟩
    · rintro ⟨u, v, h⟩
      rcases u with _ | ⟨z, zs⟩
      · rcases a with _ | ⟨w, ws⟩
        · rfl
        · simp at h
      · simp at h
  | cons y ys ih =>
    simp only [containsSeq, Bool.or_eq_true, startsW_iff, ih]
    constructor
    · rintro (⟨t, ht⟩ | ⟨u, v, rfl⟩)
      · exact ⟨[], t, by simpa using ht⟩
      · exact ⟨y :: u, v, rfl⟩
    · rintro ⟨u, v, h⟩
      cases u with
      | nil => exact Or.inl ⟨v, by simpa using h⟩
      | cons z zs =>
        simp only [List.cons_append, List.cons.injEq] at h
        exact Or.inr ⟨zs, v, h.2⟩

theorem containsSeq_append_right {a b : List Char} (c : List Char)
    (h : containsSeq a b = true) : containsSeq a (b ++ c) = true := by
  rw [containsSeq_iff] at h ⊢
  obtain ⟨u, v, rfl⟩ := h
  exact ⟨u, v ++ c, by simp⟩

theorem containsSeq_trans {a b c : List Char} (h1 : containsSeq a b = true)
    (h2 : containsSeq b c = true) : containsSeq a c = true := by
  rw [containsSeq_iff] at h1 h2 ⊢
  obtain ⟨u, v, rfl⟩ := h1
  obtain ⟨x, y, rfl⟩ := h2
  exact ⟨x ++ u, v ++ y, by simp⟩

theorem hits_mono_append (lower ext : List Char) (kws : List String) :
    hits lower kws ≤ hits (lower ++ ext) kws :=
  List.countP_mono_left (fun _ _ h => containsSeq_append_right ext h)

theorem rawScore_mono_append (lower ext : List Char) (kws : List String) :
    rawScore lower kws ≤ rawScore (lower ++ ext) kws := by
  rw [rawScore_eq, rawScore_eq]
  have h : (hits lower kws : ℚ) ≤ (hits (lower ++ ext) kws : ℚ) := by
    exact_mod_cast hits_mono_append lower ext kws
  exact (div_le_div_right (maxden_pos kws)).mpr h

theorem lowerText_append (s t : List Char) :
    lowerText (s ++ t) = lowerText s ++ lowerText t :=
  List.map_append _ s t

/-! ### Claims -/

/-- C3: for every uploaded document whose bytes are successfully read, the
`recommendations` field of the HTTP response equals exactly the `gaps` list
followed by the two fixed encouragement strings, with no deduplication
against gaps. -/
theorem claim_C3 (text : List Char) (filename : String) (size : ℕ)
    (contentType : Option String) (o : PersistOutcome) :
    (uploadAndAnalyze text filename size contentType o).recommendations =
      (analyzeText text).gaps ++
        [ "Celebrate the wins: compliance keeps users safe and builds trust.",
          "We smooth the annoying bits with templates, checklists and automation." ] :=
  rfl

/-- C1, counterexample: at the empty document the response's
recommendation list is NOT the gap-derived advisory list concatenated with
the gaps and the encouragements (the advisory list built inside
`analyze_text` is dropped before the response is built). -/
theorem claim_C1_counterexample :
    (uploadAndAnalyze "".toList "policy.txt" 0 none .failure).recommendations ≠
      adviceList (analyzeText "".toList).keyword_coverage ++
        (analyzeText "".toList).gaps ++ encouragements := by
  decide

/-- C1, amended: the recommendation list returned to the API consumer is
the raw `gaps` list followed by the two fixed encouragement sentences
only; the gap-derived advisory list computed by `analyze_text` is not part
of the returned dict and never reaches the response. -/
theorem claim_C1_amended (text : List Char) (filename : String) (size : ℕ)
    (contentType : Option String) (o : PersistOutcome) :
    (uploadAndAnalyze text filename size contentType o).recommendations =
      (analyzeText text).gaps ++ encouragements :=
  rfl

/-- C5: scoring the empty string yields all six cluster fractions 0,
coverage score 0, all six gap strings, the "work-in-progress" tier and
"none yet" highlights in the summary. -/
theorem claim_C5 :
    analyzeText "".toList =
      { coverage_score := 0
        keyword_coverage :=
          [("privacy", 0), ("security", 0), ("governance", 0),
           ("retention", 0), ("training", 0), ("vendor", 0)]
        gaps :=
          [gapString "privacy", gapString "security", gapString "governance",
           gapString "retention", gapString "training", gapString "vendor"]
        summary := "Your compliance groove is a work-in-progress — let\x27s add some shiny controls. Highlights: none yet" } := by
  decide

/-- C7: scoring is case-insensitive — any two texts with the same
lower-cased form (in particular, texts differing only in letter case)
receive identical coverage reports. -/
theorem claim_C7 (s t : List Char) (h : lowerText s = lowerText t) :
    analyzeText s = analyzeText t := by
  rw [analyzeText, analyzeText, h]

theorem claim_C7_witness :
    lowerText "GDPR and Audit".toList = lowerText "gdpr AND audit".toList ∧
    analyzeText "GDPR and Audit".toList = analyzeText "gdpr AND audit".toList :=
  ⟨by decide, claim_C7 _ _ (by decide)⟩

/-- C8: for every uploaded document whose bytes are successfully read, a
failing (or unconfigured) persistence collaborator is absorbed — the
response is still produced with `id = none`, and every other field of the
response is the same as under any other persistence outcome. -/
theorem claim_C8 (text : List Char) (filename : String) (size : ℕ)
    (contentType : Option String) (o : PersistOutcome) :
    (uploadAndAnalyze text filename size contentType .failure).id = none ∧
    uploadAndAnalyze text filename size contentType o =
      { uploadAndAnalyze text filename size contentType .failure with
          id := insertedId o } :=
  ⟨rfl, rfl⟩

/-- C4: for every input text, every per-cluster fraction in
`keyword_coverage` lies in [0,1], and `coverage_score` lies in [0,1]. -/
theorem claim_C4 (text : List Char) :
    (∀ p ∈ (analyzeText text).keyword_coverage, 0 ≤ p.2 ∧ p.2 ≤ 1) ∧
    0 ≤ (analyzeText text).coverage_score ∧
    (analyzeText text).coverage_score ≤ 1 := by
  have hmem : ∀ p ∈ covOf (lowerText text), 0 ≤ p.2 ∧ p.2 ≤ 1 := by
    intro p hp
    obtain ⟨c, _, rfl⟩ := List.mem_map.mp hp
    exact ⟨round2_nonneg (rawScore_nonneg _ _), round2_le_one (rawScore_le_one _ _)⟩
  refine ⟨hmem, ?_, ?_⟩ <;>
    · show _
      rw [show (analyzeText text).coverage_score = coverageScoreOf (lowerText text) from rfl,
          coverageScoreOf, qdivNat_eq, sumQ_eq_sum]
      have hlen : ((max (covOf (lowerText text)).length 1 : ℕ) : ℚ) = 6 := by
        norm_num [covOf, clusters]
      have hsnn : 0 ≤ ((covOf (lowerText text)).map (fun p => p.2)).sum := by
        apply List.sum_nonneg
        intro x hx
        obtain ⟨p, hp, rfl⟩ := List.mem_map.mp hx
        exact (hmem p hp).1
      have hsle : ((covOf (lowerText text)).map (fun p => p.2)).sum ≤ 6 := by
        have h1 : ∀ x ∈ (covOf (lowerText text)).map (fun p => p.2), x ≤ (1 : ℚ) := by
          intro x hx
          obtain ⟨p, hp, rfl⟩ := List.mem_map.mp hx
          exact (hmem p hp).2
        have h2 := List.sum_le_card_nsmul ((covOf (lowerText text)).map (fun p => p.2)) 1 h1
        have h3 : ((covOf (lowerText text)).map (fun p => p.2)).length = 6 := by
          simp [covOf, clusters]
        rw [h3] at h2
        simpa using h2
      rw [hlen]
      first
        | exact round2_nonneg (div_nonneg hsnn (by norm_num))
        | exact round2_le_one (by rw [div_le_one (by norm_num)]; exact hsle)

/-- C9: coverage is monotone under appending text — every per-cluster
fraction and the coverage score of `s ++ t` are at least those of `s`. -/
theorem claim_C9 (s t : List Char) :
    List.Forall₂ (fun p q => p.1 = q.1 ∧ p.2 ≤ q.2)
      (analyzeText s).keyword_coverage (analyzeText (s ++ t)).keyword_coverage ∧
    (analyzeText s).coverage_score ≤ (analyzeText (s ++ t)).coverage_score := by
  have hlow : lowerText (s ++ t) = lowerText s ++ lowerText t := lowerText_append s t
  have key : ∀ p : String × List String,
      round2 (rawScore (lowerText s) p.2) ≤ round2 (rawScore (lowerText (s ++ t)) p.2) := by
    intro p
    rw [hlow]
    exact round2_mono (rawScore_mono_append _ _ _)
  constructor
  · show List.Forall₂ _ (covOf (lowerText s)) (covOf (lowerText (s ++ t)))
    rw [covOf, covOf, List.forall₂_map_right_iff, List.forall₂_map_left_iff,
        List.forall₂_same]
    exact fun p _ => ⟨rfl, key p⟩
  · show coverageScoreOf (lowerText s) ≤ coverageScoreOf (lowerText (s ++ t))
    rw [coverageScoreOf, coverageScoreOf, qdivNat_eq, qdivNat_eq, sumQ_eq_sum, sumQ_eq_sum]
    have hlen : ∀ lo : List Char, ((max (covOf lo).length 1 : ℕ) : ℚ) = 6 := by
      intro lo
      norm_num [covOf, clusters]
    rw [hlen, hlen]
    apply round2_mono
    apply (div_le_div_right (by norm_num : (0:ℚ) < 6)).mpr
    rw [covOf, covOf, List.map_map, List.map_map]
    exact List.sum_le_sum fun p _ => key p

theorem claim_C4_witness :
    ("privacy", (0 : ℚ)) ∈ (analyzeText "".toList).keyword_coverage ∧
    (0 ≤ (0 : ℚ) ∧ (0 : ℚ) ≤ 1) ∧
    0 ≤ (analyzeText "".toList).coverage_score ∧
    (analyzeText "".toList).coverage_score ≤ 1 := by
  refine ⟨by decide, ?_, (claim_C4 "".toList).2.1, (claim_C4 "".toList).2.2⟩
  exact (claim_C4 "".toList).1 ("privacy", 0) (by decide)

theorem clusters_len_le : ∀ p ∈ clusters, p.2.length ≤ 6 := by decide

theorem round2_rawScore_pos_iff {lower : List Char} {kws : List String}
    (hlen : kws.length ≤ 6) :
    0 < round2 (rawScore lower kws) ↔ 0 < rawScore lower kws := by
  constructor
  · intro h
    by_contra hz
    have h0 : rawScore lower kws = 0 :=
      le_antisymm (not_lt.mp hz) (rawScore_nonneg _ _)
    rw [h0] at h
    have hz0 : round2 (0 : ℚ) = 0 := by decide
    rw [hz0] at h
    exact lt_irrefl 0 h
  · intro h
    exact round2_pos (rawScore_ge_sixth ((rawScore_pos_iff _ _).mp h) hlen)

theorem round2_rawScore_eq_zero_iff {lower : List Char} {kws : List String}
    (hlen : kws.length ≤ 6) :
    round2 (rawScore lower kws) = 0 ↔ ¬ 0 < rawScore lower kws := by
  constructor
  · intro h hpos
    have hlt := (round2_rawScore_pos_iff hlen).mpr hpos
    rw [h] at hlt
    exact lt_irrefl 0 hlt
  · intro h
    have h0 : rawScore lower kws = 0 :=
      le_antisymm (not_lt.mp h) (rawScore_nonneg _ _)
    rw [h0]
    decide

/-- C10: the six cluster ids are partitioned between highlights and gaps:
`keyword_coverage` carries exactly the six fixed keys in the fixed order,
a cluster is in the highlights list exactly when its reported fraction is
positive, and otherwise contributes exactly its gap string — both lists
preserving the fixed cluster order. -/
theorem claim_C10 (text : List Char) :
    (analyzeText text).keyword_coverage.map (fun p => p.1) =
      ["privacy", "security", "governance", "retention", "training", "vendor"] ∧
    presentOf (lowerText text) =
      ((analyzeText text).keyword_coverage.filter
        (fun p => decide (0 < p.2))).map (fun p => p.1) ∧
    (analyzeText text).gaps =
      ((analyzeText text).keyword_coverage.filter
        (fun p => decide (p.2 = 0))).map (fun p => gapString p.1) := by
  refine ⟨rfl, ?_, ?_⟩
  · show presentOf (lowerText text) =
      ((covOf (lowerText text)).filter (fun p => decide (0 < p.2))).map (fun p => p.1)
    rw [covOf, List.filter_map, List.map_map]
    have hfc : ∀ c ∈ clusters,
        ((fun p => decide (0 < p.2)) ∘
          fun p => (p.1, round2 (rawScore (lowerText text) p.2))) c
          = (fun p => decide (0 < rawScore (lowerText text) p.2)) c := by
      intro c hc
      simp only [Function.comp_apply]
      exact decide_eq_decide.mpr (round2_rawScore_pos_iff (clusters_len_le c hc))
    rw [List.filter_congr hfc]
    rfl
  · show gapsOf (lowerText text) =
      ((covOf (lowerText text)).filter (fun p => decide (p.2 = 0))).map (fun p => gapString p.1)
    rw [covOf, List.filter_map, List.map_map]
    have hfc : ∀ c ∈ clusters,
        ((fun p => decide (p.2 = 0)) ∘
          fun p => (p.1, round2 (rawScore (lowerText text) p.2))) c
          = (fun p => !decide (0 < rawScore (lowerText text) p.2)) c := by
      intro c hc
      have hiff := @round2_rawScore_eq_zero_iff (lowerText text) c.2
        (clusters_len_le c hc)
      simp only [Function.comp_apply, decide_eq_decide.mpr hiff, decide_not]
    rw [List.filter_congr hfc]
    rfl

theorem round2_one : round2 (1 : ℚ) = 1 := by decide

set_option maxRecDepth 10000 in
/-- C6: for every input text whose lower-cased form contains every marker
of every cluster, all six cluster fractions are 1, the coverage score is
1, and the summary uses the "rock-solid" tier (with all six highlights). -/
theorem claim_C6 (text : List Char)
    (h : ∀ k ∈ allMarkers, containsSeq k.toList (lowerText text) = true) :
    analyzeText text =
      { coverage_score := 1
        keyword_coverage :=
          [("privacy", 1), ("security", 1), ("governance", 1),
           ("retention", 1), ("training", 1), ("vendor", 1)]
        gaps := []
        summary := "Your compliance groove is rock-solid — almost party-ready for auditors! Highlights: privacy, security, governance, retention, training, vendor" } := by
  have hsub : ∀ p ∈ clusters, ∀ k ∈ p.2, k ∈ allMarkers := by decide
  have hraw : ∀ p ∈ clusters, rawScore (lowerText text) p.2 = 1 := by
    intro p hp
    have hall : hits (lowerText text) p.2 = p.2.length := by
      rw [hits, List.countP_eq_length]
      intro k hk
      exact h k (hsub p hp k hk)
    have hpos : 0 < p.2.length := by
      have hlp : ∀ q ∈ clusters, 0 < q.2.length := by decide
      exact hlp p hp
    have hm : max ((p.2.length : ℕ) : ℚ) 1 = (p.2.length : ℚ) :=
      max_eq_left (by exact_mod_cast hpos)
    rw [rawScore_eq, hall, hm]
    exact div_self (by exact_mod_cast hpos.ne')
  have hcov : covOf (lowerText text) =
      [("privacy", (1 : ℚ)), ("security", 1), ("governance", 1),
       ("retention", 1), ("training", 1), ("vendor", 1)] := by
    have h1 : clusters.map (fun p => (p.1, round2 (rawScore (lowerText text) p.2)))
        = clusters.map (fun p => (p.1, (1 : ℚ))) :=
      List.map_congr_left (fun p hp => by rw [hraw p hp, round2_one])
    rw [covOf, h1]
    rfl
  have hpres : presentOf (lowerText text) =
      ["privacy", "security", "governance", "retention", "training", "vendor"] := by
    have h1 : clusters.filter (fun p => decide (0 < rawScore (lowerText text) p.2))
        = clusters := by
      rw [List.filter_eq_self]
      intro p hp
      rw [hraw p hp]
      decide
    rw [presentOf, h1]
    rfl
  have hgaps : gapsOf (lowerText text) = [] := by
    have h1 : clusters.filter (fun p => !decide (0 < rawScore (lowerText text) p.2))
        = [] := by
      rw [List.filter_eq_nil_iff]
      intro p hp
      simp [hraw p hp]
    rw [gapsOf, h1]
    rfl
  show analyzeLower (lowerText text) = _
  rw [analyzeLower, coverageScoreOf, hcov, hpres, hgaps]
  decide

set_option maxRecDepth 100000 in
theorem claim_C6_witness :
    (∀ k ∈ allMarkers,
      containsSeq k.toList (lowerText everyMarkerText.toList) = true) ∧
    (analyzeText everyMarkerText.toList).coverage_score = 1 := by
  have h : ∀ k ∈ allMarkers,
      containsSeq k.toList (lowerText everyMarkerText.toList) = true := by decide
  exact ⟨h, by rw [claim_C6 _ h]⟩

/-- C2, counterexample: the scenario text containing exactly
"encryption" and "access control" necessarily also contains the
governance marker "control" as a substring, so the governance fraction is
0.17 (not 0), the coverage score is 0.08 (not 0.06), and only four
clusters are in gaps (not five). -/
theorem claim_C2_counterexample :
    containsSeq "encryption".toList
      (lowerText "encryption access control".toList) = true ∧
    containsSeq "access control".toList
      (lowerText "encryption access control".toList) = true ∧
    containsSeq "control".toList
      (lowerText "encryption access control".toList) = true ∧
    (analyzeText "encryption access control".toList).keyword_coverage =
      [("privacy", 0), ("security", mkRat 33 100), ("governance", mkRat 17 100),
       ("retention", 0), ("training", 0), ("vendor", 0)] ∧
    (analyzeText "encryption access control".toList).coverage_score = mkRat 8 100 ∧
    (analyzeText "encryption access control".toList).gaps =
      [gapString "privacy", gapString "retention",
       gapString "training", gapString "vendor"] := by
  decide

set_option maxRecDepth 10000 in
/-- C2, amended: for every text whose lower-cased form contains
"encryption" and "access control" and no other marker of any cluster
(other than "control", which is unavoidable as a substring of
"access control"), the security fraction is 0.33, the governance fraction
is 0.17, the four remaining fractions are 0, the coverage score is 0.08,
security and governance are not in gaps, and the other four clusters each
contribute their gap string, in cluster order. -/
theorem claim_C2_amended (text : List Char)
    (h1 : containsSeq "encryption".toList (lowerText text) = true)
    (h2 : containsSeq "access control".toList (lowerText text) = true)
    (h3 : ∀ k ∈ otherMarkers, containsSeq k.toList (lowerText text) = false) :
    analyzeText text =
      { coverage_score := mkRat 8 100
        keyword_coverage :=
          [("privacy", 0), ("security", mkRat 33 100), ("governance", mkRat 17 100),
           ("retention", 0), ("training", 0), ("vendor", 0)]
        gaps :=
          [gapString "privacy", gapString "retention",
           gapString "training", gapString "vendor"]
        summary := "Your compliance groove is a work-in-progress — let\x27s add some shiny controls. Highlights: security, governance" } := by
  have hctl : containsSeq "control".toList (lowerText text) = true :=
    containsSeq_trans (by decide) h2
  have hkm := h3 "key management" (by decide)
  have hvu := h3 "vulnerability" (by decide)
  have hpa := h3 "patch" (by decide)
  have hin := h3 "incident" (by decide)
  have hri := h3 "risk" (by decide)
  have hpo := h3 "policy" (by decide)
  have hpr := h3 "procedure" (by decide)
  have hau := h3 "audit" (by decide)
  have hev := h3 "evidence" (by decide)
  have hp : hits (lowerText text)
      ["privacy", "personal data", "pii", "consent", "gdpr", "ccpa"] = 0 := by
    rw [hits, List.countP_eq_zero]
    have hsub : ∀ k ∈ ["privacy", "personal data", "pii", "consent", "gdpr", "ccpa"],
        k ∈ otherMarkers := by decide
    intro k hk
    simp only [Bool.not_eq_true]
    exact h3 k (hsub k hk)
  have hs : hits (lowerText text)
      ["encryption", "access control", "key management",
       "vulnerability", "patch", "incident"] = 2 := by
    have a1 : containsSeq ['e', 'n', 'c', 'r', 'y', 'p', 't', 'i', 'o', 'n'] (lowerText text) = true := h1
    have a2 : containsSeq ['a', 'c', 'c', 'e', 's', 's', ' ', 'c', 'o', 'n', 't', 'r', 'o', 'l'] (lowerText text) = true := h2
    have a3 : containsSeq ['k', 'e', 'y', ' ', 'm', 'a', 'n', 'a', 'g', 'e', 'm', 'e', 'n', 't'] (lowerText text) = false := hkm
    have a4 : containsSeq ['v', 'u', 'l', 'n', 'e', 'r', 'a', 'b', 'i', 'l', 'i', 't', 'y'] (lowerText text) = false := hvu
    have a5 : containsSeq ['p', 'a', 't', 'c', 'h'] (lowerText text) = false := hpa
    have a6 : containsSeq ['i', 'n', 'c', 'i', 'd', 'e', 'n', 't'] (lowerText text) = false := hin
    simp [hits, List.countP_cons, a1, a2, a3, a4, a5, a6]
  have hg : hits (lowerText text)
      ["risk", "policy", "procedure", "audit", "control", "evidence"] = 1 := by
    have b1 : containsSeq ['r', 'i', 's', 'k'] (lowerText text) = false := hri
    have b2 : containsSeq ['p', 'o', 'l', 'i', 'c', 'y'] (lowerText text) = false := hpo
    have b3 : containsSeq ['p', 'r', 'o', 'c', 'e', 'd', 'u', 'r', 'e'] (lowerText text) = false := hpr
    have b4 : containsSeq ['a', 'u', 'd', 'i', 't'] (lowerText text) = false := hau
    have b5 : containsSeq ['c', 'o', 'n', 't', 'r', 'o', 'l'] (lowerText text) = true := hctl
    have b6 : containsSeq ['e', 'v', 'i', 'd', 'e', 'n', 'c', 'e'] (lowerText text) = false := hev
    simp [hits, List.countP_cons, b1, b2, b3, b4, b5, b6]
  have hr : hits (lowerText text)
      ["retention", "archiv", "delete", "erase", "data minimization"] = 0 := by
    rw [hits, List.countP_eq_zero]
    have hsub : ∀ k ∈ ["retention", "archiv", "delete", "erase", "data minimization"],
        k ∈ otherMarkers := by decide
    intro k hk
    simp only [Bool.not_eq_true]
    exact h3 k (hsub k hk)
  have ht : hits (lowerText text)
      ["training", "awareness", "onboarding", "annual", "phishing"] = 0 := by
    rw [hits, List.countP_eq_zero]
    have hsub : ∀ k ∈ ["training", "awareness", "onboarding", "annual", "phishing"],
        k ∈ otherMarkers := by decide
    intro k hk
    simp only [Bool.not_eq_true]
    exact h3 k (hsub k hk)
  have hv : hits (lowerText text)
      ["third party", "vendor", "processor", "subprocessor", "assessment"] = 0 := by
    rw [hits, List.countP_eq_zero]
    have hsub : ∀ k ∈ ["third party", "vendor", "processor", "subprocessor", "assessment"],
        k ∈ otherMarkers := by decide
    intro k hk
    simp only [Bool.not_eq_true]
    exact h3 k (hsub k hk)
  have hcov : covOf (lowerText text) =
      [("privacy", (0 : ℚ)), ("security", mkRat 33 100), ("governance", mkRat 17 100),
       ("retention", 0), ("training", 0), ("vendor", 0)] := by
    simp only [covOf, clusters, List.map_cons, List.map_nil, rawScore, hp, hs, hg, hr, ht, hv]
    decide
  have hpres : presentOf (lowerText text) = ["security", "governance"] := by
    simp only [presentOf, clusters, List.filter_cons, List.filter_nil, rawScore,
      hp, hs, hg, hr, ht, hv]
    decide
  have hgaps : gapsOf (lowerText text) =
      [gapString "privacy", gapString "retention",
       gapString "training", gapString "vendor"] := by
    simp only [gapsOf, clusters, List.filter_cons, List.filter_nil, rawScore,
      hp, hs, hg, hr, ht, hv]
    decide
  show analyzeLower (lowerText text) = _
  rw [analyzeLower, coverageScoreOf, hcov, hpres, hgaps]
  decide

theorem claim_C2_witness :
    containsSeq "encryption".toList
      (lowerText "encryption access control".toList) = true ∧
    containsSeq "access control".toList
      (lowerText "encryption access control".toList) = true ∧
    (∀ k ∈ otherMarkers,
      containsSeq k.toList (lowerText "encryption access control".toList) = false) ∧
    (analyzeText "encryption access control".toList).coverage_score = mkRat 8 100 := by
  have h3 : ∀ k ∈ otherMarkers,
      containsSeq k.toList (lowerText "encryption access control".toList) = false := by
    decide
  exact ⟨by decide, by decide, h3,
    by rw [claim_C2_amended _ (by decide) (by decide) h3]⟩

end ComplianceGap
